import Mathlib

/-!
Shallow embedding of the `cfb` crate (`src/lib.rs`), a reader/writer for
Compound File Binary containers, together with proofs settling the frozen
claims about its specification.

The backing medium (`F : Read + Seek` in Rust, instantiated by the tests
with `std::io::Cursor<Vec<u8>>`) is modelled as a `List Nat` of bytes: a
read past the end of the buffer fails with `CfbError.eof`, exactly as
`read_exact`/`read_u32` on a `Cursor` fail with `UnexpectedEof`.  A Rust
panic (integer underflow, out-of-bounds `Vec` index) is modelled as
`CfbError.panic`; an infinite sector-chain loop is cut by explicit fuel
and surfaces as `CfbError.fuel`.  `ErrorKind::InvalidData` (the spec's
*bad-format*) is `CfbError.invalidData` and `ErrorKind::InvalidInput`
(*invalid-argument*) is `CfbError.invalidInput`.
-/

namespace Cfb

set_option maxRecDepth 1000000
set_option maxHeartbeats 2000000

deriving instance DecidableEq for Except

/-- Error kinds surfaced by the model, mirroring `std::io::ErrorKind` plus
panic/nontermination markers. -/
inductive CfbError where
  | eof
  | invalidData
  | invalidInput
  | panic
  | fuel
deriving DecidableEq, Repr

/-- `HEADER_LEN` from `lib.rs`: length of the CFB file header in bytes. -/
def HEADER_LEN : Nat := 512

/-- `DIR_ENTRY_LEN` from `lib.rs`: length of a directory entry in bytes. -/
def DIR_ENTRY_LEN : Nat := 128

/-- `MAGIC_NUMBER` from `lib.rs`. -/
def MAGIC_NUMBER : List Nat := [0xd0, 0xcf, 0x11, 0xe0, 0xa1, 0xb1, 0x1a, 0xe1]

/-- `MINOR_VERSION` from `lib.rs`. -/
def MINOR_VERSION : Nat := 0x3e

/-- `BYTE_ORDER_MARK` from `lib.rs`. -/
def BYTE_ORDER_MARK : Nat := 0xfffe

/-- `MINI_SECTOR_SHIFT` from `lib.rs`. -/
def MINI_SECTOR_SHIFT : Nat := 6

/-- `MINI_STREAM_MAX_LEN` from `lib.rs`. -/
def MINI_STREAM_MAX_LEN : Nat := 4096

/-- `MAX_REGULAR_SECTOR` from `lib.rs`. -/
def MAX_REGULAR_SECTOR : Nat := 0xfffffffa

/-- `FAT_SECTOR` from `lib.rs`. -/
def FAT_SECTOR : Nat := 0xfffffffd

/-- `END_OF_CHAIN` from `lib.rs`. -/
def END_OF_CHAIN : Nat := 0xfffffffe

/-- `FREE_SECTOR` from `lib.rs`. -/
def FREE_SECTOR : Nat := 0xffffffff

/-- `ROOT_DIR_NAME` ("Root Entry") as its UTF-16 code units. -/
def ROOT_DIR_NAME_UTF16 : List Nat := [82, 111, 111, 116, 32, 69, 110, 116, 114, 121]

/-- `DIR_NAME_MAX_LEN` from `lib.rs`. -/
def DIR_NAME_MAX_LEN : Nat := 31

/-- `OBJ_TYPE_UNALLOCATED` from `lib.rs`. -/
def OBJ_TYPE_UNALLOCATED : Nat := 0

/-- `OBJ_TYPE_ROOT` from `lib.rs`. -/
def OBJ_TYPE_ROOT : Nat := 5

/-- The `Version` enum from `lib.rs`. -/
inductive Version where
  | v3
  | v4
deriving DecidableEq, Repr

/-- `Version::from_number`. -/
def Version.from_number (number : Nat) : Option Version :=
  match number with
  | 3 => some .v3
  | 4 => some .v4
  | _ => none

/-- `Version::number`. -/
def Version.number : Version → Nat
  | .v3 => 3
  | .v4 => 4

/-- `Version::sector_shift`. -/
def Version.sector_shift : Version → Nat
  | .v3 => 9
  | .v4 => 12

/-- `Version::sector_len`: `1 << sector_shift`. -/
def Version.sector_len (v : Version) : Nat := 1 <<< v.sector_shift

/-- Little-endian byte pair of a `u16` value (as written by `write_u16`). -/
def u16leBytes (n : Nat) : List Nat := [n % 256, n / 256 % 256]

/-- Little-endian bytes of a `u32` value (as written by `write_u32`). -/
def u32leBytes (n : Nat) : List Nat :=
  [n % 256, n / 256 % 256, n / 65536 % 256, n / 16777216 % 256]

/-- The in-memory directory entry of `lib.rs` (`struct DirEntry`): the code
keeps only the containing sector, the name and the object type.  The `name`
field (a Rust `String`) is modelled by its UTF-16 code units. -/
structure DirEntry where
  sector : Nat
  name : List Nat
  obj_type : Nat
deriving DecidableEq, Repr

/-- `DirEntry::write`: 32 UTF-16 name slots, the name length in bytes
(including the NUL terminator), the object type, then 61 zero bytes. -/
def DirEntry.write (e : DirEntry) : List Nat :=
  (e.name.map u16leBytes).flatten ++
  (List.replicate (32 - e.name.length) (u16leBytes 0)).flatten ++
  u16leBytes ((e.name.length + 1) * 2) ++
  [e.obj_type] ++
  List.replicate 61 0

/-- `DirEntry::write_unallacated` [sic]: 64 zero name bytes, zero length,
object type 0, 61 zero bytes — 128 zero bytes in all. -/
def DirEntry.write_unallacated : List Nat := List.replicate 128 0

/-- The 512 header bytes written by `CompoundFile::create_with_version`
before any padding, field by field in write order. -/
def headerBytes (v : Version) : List Nat :=
  MAGIC_NUMBER ++
  List.replicate 16 0 ++
  u16leBytes MINOR_VERSION ++
  u16leBytes v.number ++
  u16leBytes BYTE_ORDER_MARK ++
  u16leBytes v.sector_shift ++
  u16leBytes MINI_SECTOR_SHIFT ++
  List.replicate 6 0 ++
  u32leBytes 1 ++
  u32leBytes 1 ++
  u32leBytes 1 ++
  u32leBytes 0 ++
  u32leBytes MINI_STREAM_MAX_LEN ++
  u32leBytes END_OF_CHAIN ++
  u32leBytes 0 ++
  u32leBytes END_OF_CHAIN ++
  u32leBytes 0 ++
  u32leBytes 0 ++
  (List.replicate 108 (u32leBytes FREE_SECTOR)).flatten

/-- The FAT sector written by `create_with_version`:
`[FAT_SECTOR, END_OF_CHAIN]` then `FREE_SECTOR` up to `sector_len / 4`. -/
def fatSectorBytes (v : Version) : List Nat :=
  u32leBytes FAT_SECTOR ++ u32leBytes END_OF_CHAIN ++
  (List.replicate (v.sector_len / 4 - 2) (u32leBytes FREE_SECTOR)).flatten

/-- The root directory entry constructed by `create_with_version`. -/
def rootDirEntry : DirEntry :=
  { sector := 1, name := ROOT_DIR_NAME_UTF16, obj_type := OBJ_TYPE_ROOT }

/-- The directory sector written by `create_with_version`: the root entry
followed by unallocated entries up to `sector_len / DIR_ENTRY_LEN`. -/
def dirSectorBytes (v : Version) : List Nat :=
  rootDirEntry.write ++
  (List.replicate (v.sector_len / DIR_ENTRY_LEN - 1) DirEntry.write_unallacated).flatten

/-- `CompoundFile::create_with_version`, modelled as the byte image it
writes to an initially empty medium.  The header-padding branch of the
source runs `vec![0; HEADER_LEN - sector_len]` under the guard
`sector_len > HEADER_LEN`, so the `usize` subtraction underflows whenever
the guard holds (panic in debug builds, capacity-overflow abort in release
builds); that panic is modelled as `CfbError.panic`. -/
def create_with_version (v : Version) : Except CfbError (List Nat) :=
  if HEADER_LEN < v.sector_len then .error .panic
  else .ok (headerBytes v ++ fatSectorBytes v ++ dirSectorBytes v)

/-- `CompoundFile::create` delegates to `create_with_version` with V4. -/
def create : Except CfbError (List Nat) := create_with_version .v4

/-- The byte image produced by `create_with_version(_, Version::V3)`. -/
def v3Image : List Nat := headerBytes .v3 ++ fatSectorBytes .v3 ++ dirSectorBytes .v3

/-- Little-endian `u16` value at a byte offset of the medium (the value
read by `read_u16::<LittleEndian>`; bounds are checked separately). -/
def u16le (m : List Nat) (off : Nat) : Nat := m.getD off 0 + 256 * m.getD (off + 1) 0

/-- Little-endian `u32` value at a byte offset of the medium. -/
def u32le (m : List Nat) (off : Nat) : Nat := u16le m off + 65536 * u16le m (off + 2)

/-- `read_u16::<LittleEndian>` on a `Cursor`: fails with `UnexpectedEof`
when fewer than 2 bytes remain. -/
def readU16 (m : List Nat) (off : Nat) : Except CfbError Nat :=
  if off + 2 ≤ m.length then .ok (u16le m off) else .error .eof

/-- `read_u32::<LittleEndian>` on a `Cursor`. -/
def readU32 (m : List Nat) (off : Nat) : Except CfbError Nat :=
  if off + 4 ≤ m.length then .ok (u32le m off) else .error .eof

/-- `DirEntry::read`, parsing the 128-byte entry at byte offset `off` of
the medium.  The source reads the 32 UTF-16 name slots and the name
length (66 bytes), rejects a name length that is `> 64` or odd with
`ErrorKind::InvalidData`, decodes `name_len_bytes / 2 - 1` name code
units (`0` when the length is `0`), then reads — and discards — the
remaining 62 bytes (object type excepted); the trailing 64-bit
`stream_len` is never inspected (`// TODO` in the source). -/
def DirEntry.read (m : List Nat) (off : Nat) (sector : Nat) : Except CfbError DirEntry :=
  if off + 66 ≤ m.length then
    let name_len_bytes := u16le m (off + 64)
    if 64 < name_len_bytes ∨ name_len_bytes % 2 ≠ 0 then .error .invalidData
    else
      let name_len_chars := if 0 < name_len_bytes then name_len_bytes / 2 - 1 else 0
      if off + 128 ≤ m.length then
        .ok { sector := sector,
              name := (List.range name_len_chars).map (fun i => u16le m (off + 2 * i)),
              obj_type := m.getD (off + 66) 0 }
      else .error .eof
  else .error .eof

/-- Byte offset of a sector, as computed by `seek_to_sector` /
`seek_within_sector`: `sector_len * (1 + sector_index)` — the `+ 1`
accounts for the header. -/
def sectorOffset (v : Version) (i : Nat) : Nat := v.sector_len * (1 + i)

/-- Read `n` consecutive little-endian `u32` values starting at `off`. -/
def readU32s (m : List Nat) (off : Nat) : Nat → Except CfbError (List Nat)
  | 0 => .ok []
  | n + 1 =>
    match readU32 m off with
    | .error e => .error e
    | .ok x =>
      match readU32s m (off + 4) n with
      | .error e => .error e
      | .ok rest => .ok (x :: rest)

/-- The inline-DIFAT loop of `open`: up to 109 entries starting at header
offset 76, stopping at the first value above `MAX_REGULAR_SECTOR`. -/
def difatInline (m : List Nat) (off : Nat) : Nat → Except CfbError (List Nat)
  | 0 => .ok []
  | n + 1 =>
    match readU32 m off with
    | .error e => .error e
    | .ok next =>
      if MAX_REGULAR_SECTOR < next then .ok []
      else
        match difatInline m (off + 4) n with
        | .error e => .error e
        | .ok rest => .ok (next :: rest)

/-- The DIFAT sector-chain loop of `open`: starting from the header's
first-DIFAT-sector pointer, each visited sector contributes
`sector_len / 4 - 1` DIFAT entries and a trailing next pointer, until
`END_OF_CHAIN`.  Returns (entries read, sectors visited).  The source
loop has no cycle detection and can run forever; the model cuts it with
fuel, surfacing nontermination as `CfbError.fuel`. -/
def difatChain (m : List Nat) (v : Version) : Nat → Nat → Except CfbError (List Nat × List Nat)
  | current, 0 => if current = END_OF_CHAIN then .ok ([], []) else .error .fuel
  | current, fuel + 1 =>
    if current = END_OF_CHAIN then .ok ([], [])
    else
      match readU32s m (sectorOffset v current) (v.sector_len / 4 - 1) with
      | .error e => .error e
      | .ok entries =>
        match readU32 m (sectorOffset v current + 4 * (v.sector_len / 4 - 1)) with
        | .error e => .error e
        | .ok next =>
          match difatChain m v next fuel with
          | .error e => .error e
          | .ok rest => .ok (entries ++ rest.1, current :: rest.2)

/-- The FAT-reading loop of `open`: each DIFAT entry names a FAT sector,
whose `sector_len / 4` entries are appended. -/
def readFatSectors (m : List Nat) (v : Version) : List Nat → Except CfbError (List Nat)
  | [] => .ok []
  | s :: rest =>
    match readU32s m (sectorOffset v s) (v.sector_len / 4) with
    | .error e => .error e
    | .ok es =>
      match readFatSectors m v rest with
      | .error e => .error e
      | .ok more => .ok (es ++ more)

/-- The trailing-`FREE_SECTOR` trim of `open`
(`while fat.last() == Some(&FREE_SECTOR) { fat.pop() }`). -/
def trimFreeTail (fat : List Nat) : List Nat :=
  (fat.reverse.dropWhile (fun x => x = FREE_SECTOR)).reverse

/-- One directory sector's worth of entries (`sector_len / DIR_ENTRY_LEN`
consecutive `DirEntry::read` calls). -/
def readDirSector (m : List Nat) (off : Nat) (sector : Nat) : Nat → Except CfbError (List DirEntry)
  | 0 => .ok []
  | n + 1 =>
    match DirEntry.read m off sector with
    | .error e => .error e
    | .ok e =>
      match readDirSector m (off + DIR_ENTRY_LEN) sector n with
      | .error e => .error e
      | .ok rest => .ok (e :: rest)

/-- The directory-chain loop of `open`: follows `fat[current]` from the
header's first-directory-sector pointer to `END_OF_CHAIN`.  The source
indexes `fat[current as usize]` without a bounds check (`Vec` indexing
panics when out of range) and has no cycle detection (fuel as above). -/
def dirChain (m : List Nat) (v : Version) (fat : List Nat) : Nat → Nat → Except CfbError (List DirEntry)
  | current, 0 => if current = END_OF_CHAIN then .ok [] else .error .fuel
  | current, fuel + 1 =>
    if current = END_OF_CHAIN then .ok []
    else
      match readDirSector m (sectorOffset v current) current (v.sector_len / DIR_ENTRY_LEN) with
      | .error e => .error e
      | .ok es =>
        match fat.get? current with
        | none => .error .panic
        | some next =>
          match dirChain m v fat next fuel with
          | .error e => .error e
          | .ok rest => .ok (es ++ rest)

/-- The in-memory `CompoundFile` state built by `open` (the medium itself
is omitted: `open` takes `F : Read + Seek`, so it cannot write to it). -/
structure CompoundFile where
  version : Version
  difat : List Nat
  fat : List Nat
  directory : List DirEntry
deriving DecidableEq, Repr

/-- The tail of `CompoundFile::open` after the header checks: reads the
first directory sector pointer (offset 48), the DIFAT pointers (offsets
68 and 72), the inline DIFAT, the DIFAT chain, cross-checks the chain
length against `num_difat_sectors`, reads the FAT, trims it, and walks
the directory chain. -/
def openAfterHeader (m : List Nat) (version : Version) : Except CfbError CompoundFile :=
  match readU32 m 48 with
  | .error e => .error e
  | .ok first_dir_sector =>
    match readU32 m 68 with
    | .error e => .error e
    | .ok first_difat_sector =>
      match readU32 m 72 with
      | .error e => .error e
      | .ok num_difat_sectors =>
        match difatInline m 76 109 with
        | .error e => .error e
        | .ok inline =>
          match difatChain m version first_difat_sector (m.length + 1) with
          | .error e => .error e
          | .ok chain =>
            if num_difat_sectors ≠ chain.2.length then .error .invalidData
            else
              match readFatSectors m version (inline ++ chain.1) with
              | .error e => .error e
              | .ok fat0 =>
                match dirChain m version (trimFreeTail fat0) first_dir_sector (m.length + 1) with
                | .error e => .error e
                | .ok directory =>
                  .ok { version := version, difat := inline ++ chain.1,
                        fat := trimFreeTail fat0, directory := directory }

/-- `CompoundFile::open`: verify the magic number, the version tag
(offset 26) and the sector shift (offset 30), then read DIFAT, FAT and
directory. -/
def openCfb (m : List Nat) : Except CfbError CompoundFile :=
  if m.length < 8 then .error .eof
  else if m.take 8 ≠ MAGIC_NUMBER then .error .invalidData
  else
    match readU16 m 26 with
    | .error e => .error e
    | .ok version_number =>
      match Version.from_number version_number with
      | none => .error .invalidData
      | some version =>
        match readU16 m 30 with
        | .error e => .error e
        | .ok sector_shift =>
          if sector_shift ≠ version.sector_shift then .error .invalidData
          else openAfterHeader m version

/-- The cursor state of `struct Stream` (the borrowed `CompoundFile` is
passed separately as its `fat` vector and version). -/
structure StreamState where
  total_len : Nat
  offset_from_start : Nat
  offset_within_sector : Nat
  start_sector : Nat
  current_sector : Nat
deriving DecidableEq, Repr

/-- `std::io::SeekFrom`: `Start` carries a `u64`, the others an `i64`. -/
inductive SeekFrom where
  | fromStart (delta : Nat)
  | fromEnd (delta : Int)
  | fromCurrent (delta : Int)
deriving DecidableEq, Repr

/-- Two's-complement reinterpretation into the `i64` range, modelling the
`as i64` casts and (release-mode) wrapping `i64` addition of the source. -/
def wrap64 (z : Int) : Int := (z + 2 ^ 63) % 2 ^ 64 - 2 ^ 63

/-- The `new_pos` computation of `Stream::seek`:
`Start(d) => d as i64`, `End(d) => d + total_len as i64`,
`Current(d) => d + offset_from_start as i64`. -/
def seekNewPos (s : StreamState) : SeekFrom → Int
  | .fromStart delta => wrap64 delta
  | .fromEnd delta => wrap64 (delta + wrap64 s.total_len)
  | .fromCurrent delta => wrap64 (delta + wrap64 s.offset_from_start)

/-- The chain walk of `Stream::seek`
(`while offset >= sector_len { sector = fat[sector]; offset -= sector_len }`):
returns the final (sector, offset).  `fat[sector]` is an unchecked `Vec`
index (panic when out of bounds); the source loop terminates because
`sector_len ≥ 512`, while the model uses fuel (`offset` itself, an upper
bound on the iteration count, is passed as fuel at the call site). -/
def seekWalk (fat : List Nat) (sl : Nat) : Nat → Nat → Nat → Except CfbError (Nat × Nat)
  | 0, offset, sector => if offset < sl then .ok (sector, offset) else .error .fuel
  | fuel + 1, offset, sector =>
    if offset < sl then .ok (sector, offset)
    else
      match fat.get? sector with
      | none => .error .panic
      | some next => seekWalk fat sl fuel (offset - sl) next

/-- `Stream::seek`: reject a new position that is negative or beyond
`total_len` with `InvalidInput`; otherwise return the previous logical
offset, walking the FAT chain from `start_sector` when the position
actually changes.  (The physical `seek_within_sector` repositioning of
the medium is not represented; it carries no observable state.) -/
def Stream.seek (fat : List Nat) (v : Version) (s : StreamState) (pos : SeekFrom) :
    Except CfbError (Nat × StreamState) :=
  if seekNewPos s pos < 0 ∨ wrap64 s.total_len < seekNewPos s pos then .error .invalidInput
  else if (seekNewPos s pos).toNat = s.offset_from_start then .ok (s.offset_from_start, s)
  else
    match seekWalk fat v.sector_len (seekNewPos s pos).toNat (seekNewPos s pos).toNat
        s.start_sector with
    | .error e => .error e
    | .ok res =>
      .ok (s.offset_from_start,
           { s with current_sector := res.1, offset_within_sector := res.2,
                    offset_from_start := (seekNewPos s pos).toNat })

/-- The state advance of `Stream::read` after the underlying reader
returned `n` bytes: bump both offsets; on reaching the end of the sector,
reset the in-sector offset and follow the FAT link (an unchecked `Vec`
index).  The source then physically seeks unless the link is
`END_OF_CHAIN`; the model keeps only the cursor state. -/
def Stream.readStep (fat : List Nat) (sl : Nat) (s : StreamState) (n : Nat) :
    Except CfbError (Nat × StreamState) :=
  if s.offset_within_sector + n = sl then
    match fat.get? s.current_sector with
    | none => .error .panic
    | some next =>
      .ok (n, { s with offset_from_start := s.offset_from_start + n,
                       offset_within_sector := 0, current_sector := next })
  else
    .ok (n, { s with offset_from_start := s.offset_from_start + n,
                     offset_within_sector := s.offset_within_sector + n })

/-- `Stream::read`: clamp the request to
`min(buf.len(), remaining_in_file, remaining_in_sector)`; return 0
immediately when that is 0; otherwise issue one underlying read
(`innerRead`, which by the `Read` contract returns at most the requested
count) and advance. -/
def Stream.read (fat : List Nat) (v : Version) (s : StreamState) (bufLen : Nat)
    (innerRead : Nat → Nat) : Except CfbError (Nat × StreamState) :=
  if min bufLen (min (s.total_len - s.offset_from_start)
      (v.sector_len - s.offset_within_sector)) = 0 then
    .ok (0, s)
  else
    Stream.readStep fat v.sector_len s
      (innerRead (min bufLen (min (s.total_len - s.offset_from_start)
        (v.sector_len - s.offset_within_sector))))

/-- A well-formed FAT chain: every listed sector is a real index
(`≤ MAX_REGULAR_SECTOR`) within the FAT vector, each links to the next,
and the last links to `END_OF_CHAIN`. -/
def isChain (fat : List Nat) : List Nat → Bool
  | [] => true
  | s :: rest =>
    decide (s < fat.length) && decide (s ≤ MAX_REGULAR_SECTOR) &&
    (match rest with
     | [] => decide (fat.getD s 0 = END_OF_CHAIN)
     | t :: _ => decide (fat.getD s 0 = t)) &&
    isChain fat rest

/-- The chain backing a stream of `total` bytes: well formed and exactly
`⌈total / sl⌉` sectors long. -/
@[reducible] def streamChainOk (fat : List Nat) (sl total : Nat) (cs : List Nat) : Prop :=
  isChain fat cs = true ∧ cs.length = (total + sl - 1) / sl

/-- The cursor invariant maintained by `Stream`'s own transitions (the
`debug_assert!`s of the source): the logical offset is within the
stream, the in-sector offset is its residue modulo the sector length,
and — before end of stream — `current_sector` is the
`offset / sector_len`-th sector of the chain. -/
@[reducible] def cursorOk (sl : Nat) (s : StreamState) (cs : List Nat) : Prop :=
  s.offset_from_start ≤ s.total_len ∧
  s.offset_within_sector = s.offset_from_start % sl ∧
  s.offset_within_sector < sl ∧
  (s.offset_from_start < s.total_len →
    cs.get? (s.offset_from_start / sl) = some s.current_sector)

/-- `Storage::set_name`, acting on the in-memory directory: rejects
renaming the root entry and a name longer than 31 UTF-16 code units with
`ErrorKind::InvalidInput`, then — the sibling-conflict check being a
`// TODO` in the source — unconditionally overwrites the entry's name
(the mirrored 64-byte on-disk name write is elided; `directory` indexing
mirrors the source's unchecked `Vec` index). -/
def Storage.set_name (directory : List DirEntry) (stream_id : Nat) (name : List Nat) :
    Except CfbError (List DirEntry) :=
  match directory.get? stream_id with
  | none => .error .panic
  | some e =>
    if e.obj_type = OBJ_TYPE_ROOT then .error .invalidInput
    else
      if (name.take (DIR_NAME_MAX_LEN + 1)).length > DIR_NAME_MAX_LEN then
        .error .invalidInput
      else .ok (directory.set stream_id { e with name := name })

example : create_with_version .v3 = .ok v3Image := rfl

example : v3Image.length = 1536 := by decide

/-- C7: parsing a 128-byte directory entry whose `name_len_bytes` field
(at entry offset 64) is odd or greater than 64 fails with a bad-format
(`InvalidData`) error; otherwise the decoded name has
`name_len_bytes / 2 - 1` UTF-16 code units (`0` when `name_len_bytes` is
`0`), excluding the NUL terminator counted by the field. -/
theorem c7_dir_entry_name_len (m : List Nat) (off sector : Nat)
    (h : off + 66 ≤ m.length) :
    (64 < u16le m (off + 64) ∨ u16le m (off + 64) % 2 = 1 →
      DirEntry.read m off sector = .error .invalidData) ∧
    (u16le m (off + 64) ≤ 64 → u16le m (off + 64) % 2 = 0 → off + 128 ≤ m.length →
      (DirEntry.read m off sector).map (fun e => e.name.length) =
        .ok (if 0 < u16le m (off + 64) then u16le m (off + 64) / 2 - 1 else 0)) := by
  constructor
  · intro hbad
    have hbad' : 64 < u16le m (off + 64) ∨ u16le m (off + 64) % 2 ≠ 0 := by
      rcases hbad with hb | hb
      · exact Or.inl hb
      · exact Or.inr (by omega)
    simp only [DirEntry.read]
    rw [if_pos h, if_pos hbad']
  · intro h64 heven h128
    have hgood : ¬(64 < u16le m (off + 64) ∨ u16le m (off + 64) % 2 ≠ 0) := by
      push_neg
      exact ⟨by omega, heven⟩
    simp only [DirEntry.read]
    rw [if_pos h, if_neg hgood, if_pos h128]
    simp [Except.map]

/-- C7 witness: a zeroed entry whose `name_len_bytes` is 65 is rejected
as bad-format, and the root directory entry written by `create` (name
length field 22) decodes to a 10-code-unit name. -/
theorem c7_dir_entry_name_len_witness :
    DirEntry.read ((List.replicate 128 0).set 64 65) 0 0 = .error .invalidData ∧
    (DirEntry.read rootDirEntry.write 0 1).map (fun e => e.name.length) = .ok 10 := by
  constructor
  · exact (c7_dir_entry_name_len ((List.replicate 128 0).set 64 65) 0 0 (by decide)).1
      (by decide)
  · have h := (c7_dir_entry_name_len rootDirEntry.write 0 1 (by decide)).2
      (by decide) (by decide) (by decide)
    exact h.trans (by decide)

/-- C9 (code evaluated at the failing input): a 128-byte directory entry
that is all zeros except byte 124 set to 1 has `stream_len = 2^32`
(non-zero high 32 bits), yet `DirEntry::read` accepts it — the source
never inspects `stream_len` (the version is not even passed in), so no
bad-format error is raised for V3 containers. -/
theorem c9_v3_stream_len_high_bits_accepted :
    u32le ((List.replicate 128 0).set 124 1) 124 = 1 ∧
    DirEntry.read ((List.replicate 128 0).set 124 1) 0 0 =
      .ok { sector := 0, name := [], obj_type := 0 } := by
  refine ⟨by decide, by decide⟩

/-- Reading a `u16` within bounds yields its little-endian value. -/
theorem readU16_ok (m : List Nat) (off : Nat) (h : off + 2 ≤ m.length) :
    readU16 m off = .ok (u16le m off) := by
  simp [readU16, h]

/-- Reading a `u32` within bounds yields its little-endian value. -/
theorem readU32_ok (m : List Nat) (off : Nat) (h : off + 4 ≤ m.length) :
    readU32 m off = .ok (u32le m off) := by
  simp [readU32, h]

/-- When the magic, version tag and sector shift all check out, `open`
proceeds to the DIFAT/FAT/directory phase. -/
theorem openCfb_header_ok (m : List Nat) (v : Version)
    (h32 : 32 ≤ m.length) (hm : m.take 8 = MAGIC_NUMBER)
    (hv : Version.from_number (u16le m 26) = some v)
    (hs : u16le m 30 = v.sector_shift) :
    openCfb m = openAfterHeader m v := by
  simp only [openCfb]
  rw [if_neg (by omega), if_neg (by simp [hm]), readU16_ok m 26 (by omega)]
  dsimp only
  rw [hv]
  dsimp only
  rw [readU16_ok m 30 (by omega)]
  dsimp only
  rw [hs, if_neg (by simp)]

/-- C5: any medium of at least 8 bytes whose first 8 bytes differ from
`D0 CF 11 E0 A1 B1 1A E1` makes `open` fail with a bad-format
(`InvalidData`) error.  The medium cannot be modified: `open` only
requires `Read + Seek` on it, and the model is a pure function of the
byte list. -/
theorem c5_open_bad_magic (m : List Nat) (h8 : 8 ≤ m.length)
    (hm : m.take 8 ≠ MAGIC_NUMBER) :
    openCfb m = .error .invalidData := by
  simp only [openCfb]
  rw [if_neg (by omega), if_pos hm]

/-- C5 witness: a 1536-byte all-zero buffer is rejected as bad-format. -/
theorem c5_open_bad_magic_witness :
    openCfb (List.replicate 1536 0) = .error .invalidData :=
  c5_open_bad_magic (List.replicate 1536 0) (by decide) (by decide)

/-- C10: whenever the header's sector-shift field at offset 30 differs
from the shift implied by the (well-formed) version tag at offset 26,
`open` fails with an `InvalidData` error before reading any sector, so
it never proceeds with mismatched geometry. -/
theorem c10_sector_shift_mismatch (m : List Nat) (v : Version)
    (h32 : 32 ≤ m.length) (hm : m.take 8 = MAGIC_NUMBER)
    (hv : Version.from_number (u16le m 26) = some v)
    (hs : u16le m 30 ≠ v.sector_shift) :
    openCfb m = .error .invalidData := by
  simp only [openCfb]
  rw [if_neg (by omega), if_neg (by simp [hm]), readU16_ok m 26 (by omega)]
  dsimp only
  rw [hv]
  dsimp only
  rw [readU16_ok m 30 (by omega)]
  dsimp only
  rw [if_pos hs]

/-- C10 witness: the V3 image created by the library, with its
sector-shift field overwritten by 12 (V4's shift, itself a well-formed
value), is rejected as bad-format. -/
theorem c10_sector_shift_mismatch_witness :
    openCfb (v3Image.set 30 12) = .error .invalidData :=
  c10_sector_shift_mismatch (v3Image.set 30 12) .v3
    (by decide) (by decide) (by decide) (by decide)

/-- C6: when the DIFAT sector chain, followed from the header's
first-DIFAT-sector pointer (offset 68) to `END_OF_CHAIN`, traverses a
number of sectors different from the header's `num_difat_sectors` field
(offset 72), `open` fails with a bad-format (`InvalidData`) error. -/
theorem c6_difat_count_mismatch (m : List Nat) (v : Version)
    (inline : List Nat) (chain : List Nat × List Nat)
    (h76 : 76 ≤ m.length) (hm : m.take 8 = MAGIC_NUMBER)
    (hv : Version.from_number (u16le m 26) = some v)
    (hs : u16le m 30 = v.sector_shift)
    (hinline : difatInline m 76 109 = .ok inline)
    (hchain : difatChain m v (u32le m 68) (m.length + 1) = .ok chain)
    (hcount : u32le m 72 ≠ chain.2.length) :
    openCfb m = .error .invalidData := by
  rw [openCfb_header_ok m v (by omega) hm hv hs]
  simp only [openAfterHeader]
  rw [readU32_ok m 48 (by omega)]
  dsimp only
  rw [readU32_ok m 68 (by omega)]
  dsimp only
  rw [readU32_ok m 72 (by omega)]
  dsimp only
  rw [hinline]
  dsimp only
  rw [hchain]
  dsimp only
  rw [if_pos hcount]

/-- C6 witness: the V3 image created by the library, with its
`num_difat_sectors` field overwritten by 1 (while the chain at offset 68
is `END_OF_CHAIN`, i.e. zero sectors long), is rejected as bad-format. -/
theorem c6_difat_count_mismatch_witness :
    openCfb (v3Image.set 72 1) = .error .invalidData :=
  c6_difat_count_mismatch (v3Image.set 72 1) .v3 [0] ([], [])
    (by decide) (by decide) (by decide) (by decide) (by decide) (by decide) (by decide)

/-- Head decomposition of `isChain`: the head sector is a real in-bounds
index and the tail is itself a chain. -/
theorem isChain_cons (fat : List Nat) (c : Nat) (rest : List Nat)
    (h : isChain fat (c :: rest) = true) :
    c < fat.length ∧ c ≤ MAX_REGULAR_SECTOR ∧ isChain fat rest = true := by
  simp only [isChain, Bool.and_eq_true, decide_eq_true_eq] at h
  exact ⟨h.1.1.1, h.1.1.2, h.2⟩

/-- In a chain, a non-final sector's FAT entry is the next sector. -/
theorem isChain_cons_cons (fat : List Nat) (c t : Nat) (rest2 : List Nat)
    (h : isChain fat (c :: t :: rest2) = true) :
    fat.getD c 0 = t := by
  simp only [isChain, Bool.and_eq_true, decide_eq_true_eq] at h
  exact h.1.2

/-- In a chain, the final sector's FAT entry is `END_OF_CHAIN`. -/
theorem isChain_single (fat : List Nat) (c : Nat)
    (h : isChain fat [c] = true) :
    fat.getD c 0 = END_OF_CHAIN := by
  simp only [isChain, Bool.and_eq_true, decide_eq_true_eq] at h
  exact h.1.2

/-- In a well-formed chain, each sector's FAT entry is the next listed
sector, itself a real index. -/
theorem isChain_link (fat : List Nat) : ∀ (cs : List Nat) (i a b : Nat),
    isChain fat cs = true → cs.get? i = some a → cs.get? (i + 1) = some b →
    fat.getD a 0 = b ∧ b ≤ MAX_REGULAR_SECTOR := by
  intro cs
  induction cs with
  | nil =>
    intro i a b _ ha _
    simp at ha
  | cons c rest ih =>
    intro i a b h ha hb
    cases rest with
    | nil =>
      cases i with
      | zero => simp at hb
      | succ j => simp at hb
    | cons t rest2 =>
      cases i with
      | zero =>
        simp only [List.get?] at ha hb
        cases ha
        cases hb
        refine ⟨isChain_cons_cons fat c b rest2 h, ?_⟩
        exact (isChain_cons fat b rest2 (isChain_cons fat c (b :: rest2) h).2.2).2.1
      | succ j =>
        exact ih j a b (isChain_cons fat c (t :: rest2) h).2.2 ha hb
/-- The sector length is positive (512 or 4096). -/
theorem sector_len_pos (v : Version) : 0 < v.sector_len := by
  cases v <;> decide

/-- C3: a single `Stream::read` call returns at most
`min(buf.len(), remaining_in_file, remaining_in_sector)` bytes, obtained
from one underlying read; at end of stream
(`offset_from_start = total_len`) it returns 0 without touching the
medium; and when it advances past a sector whose FAT link is
`END_OF_CHAIN`, the logical offset afterwards equals `total_len` (the
`debug_assert!` of the source), given the stream's chain and cursor
invariants. -/
theorem c3_stream_read (v : Version) (fat : List Nat) (s : StreamState) (bufLen : Nat)
    (innerRead : Nat → Nat) (cs : List Nat)
    (hinner : ∀ n, innerRead n ≤ n)
    (hchain : streamChainOk fat v.sector_len s.total_len cs)
    (hcur : cursorOk v.sector_len s cs) :
    (∀ r s1, Stream.read fat v s bufLen innerRead = .ok (r, s1) →
      r ≤ min bufLen (min (s.total_len - s.offset_from_start)
        (v.sector_len - s.offset_within_sector))) ∧
    (s.offset_from_start = s.total_len →
      Stream.read fat v s bufLen innerRead = .ok (0, s)) ∧
    (∀ r s1, Stream.read fat v s bufLen innerRead = .ok (r, s1) →
      fat.getD s.current_sector 0 = END_OF_CHAIN →
      s.offset_within_sector + r = v.sector_len →
      s1.offset_from_start = s.total_len) := by
  have hsl : 0 < v.sector_len := sector_len_pos v
  refine ⟨?_, ?_, ?_⟩
  · intro r s1 h
    simp only [Stream.read] at h
    by_cases hml : min bufLen (min (s.total_len - s.offset_from_start)
        (v.sector_len - s.offset_within_sector)) = 0
    · rw [if_pos hml] at h
      cases h
      exact Nat.zero_le _
    · rw [if_neg hml] at h
      simp only [Stream.readStep] at h
      by_cases hfill : s.offset_within_sector + innerRead (min bufLen
          (min (s.total_len - s.offset_from_start)
            (v.sector_len - s.offset_within_sector))) = v.sector_len
      · rw [if_pos hfill] at h
        cases hfat : fat.get? s.current_sector with
        | none => rw [hfat] at h; cases h
        | some next =>
          rw [hfat] at h
          cases h
          exact hinner _
      · rw [if_neg hfill] at h
        cases h
        exact hinner _
  · intro heq
    simp only [Stream.read]
    rw [if_pos (by simp [heq])]
  · intro r s1 h heoc hfillr
    by_cases hml : min bufLen (min (s.total_len - s.offset_from_start)
        (v.sector_len - s.offset_within_sector)) = 0
    · simp only [Stream.read] at h
      rw [if_pos hml] at h
      cases h
      have hwlt : s.offset_within_sector < v.sector_len := hcur.2.2.1
      omega
    · simp only [Stream.read] at h
      rw [if_neg hml] at h
      simp only [Stream.readStep] at h
      by_cases hfill : s.offset_within_sector + innerRead (min bufLen
          (min (s.total_len - s.offset_from_start)
            (v.sector_len - s.offset_within_sector))) = v.sector_len
      · rw [if_pos hfill] at h
        cases hfat : fat.get? s.current_sector with
        | none => rw [hfat] at h; cases h
        | some next =>
          rw [hfat] at h
          cases h
          have hremF : 1 ≤ s.total_len - s.offset_from_start :=
            le_trans (Nat.one_le_iff_ne_zero.2 hml)
              (le_trans (Nat.min_le_right _ _) (Nat.min_le_left _ _))
          have hoff_le : s.offset_from_start ≤ s.total_len := hcur.1
          have hoff_lt : s.offset_from_start < s.total_len := by omega
          have hn_le : innerRead (min bufLen
              (min (s.total_len - s.offset_from_start)
                (v.sector_len - s.offset_within_sector))) ≤
              s.total_len - s.offset_from_start :=
            le_trans (hinner _) (le_trans (Nat.min_le_right _ _) (Nat.min_le_left _ _))
          have hcs : cs.get? (s.offset_from_start / v.sector_len)
              = some s.current_sector := hcur.2.2.2 hoff_lt
          have hk_lt : s.offset_from_start / v.sector_len < cs.length := by
            by_contra hc
            rw [List.get?_eq_none.mpr (by omega)] at hcs
            cases hcs
          have hk_last : ¬(s.offset_from_start / v.sector_len + 1 < cs.length) := by
            intro hc
            cases hgb : cs.get? (s.offset_from_start / v.sector_len + 1) with
            | none =>
              have := List.get?_eq_none.mp hgb
              omega
            | some b =>
              have hlink := isChain_link fat cs (s.offset_from_start / v.sector_len)
                s.current_sector b hchain.1 hcs hgb
              rw [heoc] at hlink
              have hcontra : END_OF_CHAIN ≤ MAX_REGULAR_SECTOR := hlink.1 ▸ hlink.2
              revert hcontra
              decide
          have hlen : cs.length = (s.total_len + v.sector_len - 1) / v.sector_len :=
            hchain.2
          have hmul : s.total_len + v.sector_len - 1
              < (s.offset_from_start / v.sector_len + 2) * v.sector_len :=
            (Nat.div_lt_iff_lt_mul hsl).1 (by omega)
          have hBo : v.sector_len * (s.offset_from_start / v.sector_len)
              + s.offset_within_sector = s.offset_from_start := by
            rw [hcur.2.1]
            exact Nat.div_add_mod s.offset_from_start v.sector_len
          have hexp : (s.offset_from_start / v.sector_len + 2) * v.sector_len
              = v.sector_len * (s.offset_from_start / v.sector_len)
                + 2 * v.sector_len := by ring
          rw [hexp] at hmul
          generalize v.sector_len * (s.offset_from_start / v.sector_len) = B at hBo hmul
          simp only [StreamState.offset_from_start]
          omega
      · rw [if_neg hfill] at h
        cases h
        exact absurd hfillr hfill

/-- C3 witness: a 512-byte V3 stream read with a 600-byte buffer from
offset 0 returns 512 bytes (the clamp), and — the final sector's link
being `END_OF_CHAIN` — lands exactly at `total_len`. -/
theorem c3_stream_read_witness :
    Stream.read [END_OF_CHAIN] Version.v3 ⟨512, 0, 0, 0, 0⟩ 600 id
      = .ok (512, ⟨512, 512, 0, 0, END_OF_CHAIN⟩) ∧
    (512 : Nat) ≤ min 600 (min (512 - 0) (Version.v3.sector_len - 0)) ∧
    (⟨512, 512, 0, 0, END_OF_CHAIN⟩ : StreamState).offset_from_start = 512 := by
  have h := c3_stream_read Version.v3 [END_OF_CHAIN] ⟨512, 0, 0, 0, 0⟩ 600 id [0]
    (fun n => Nat.le_refl n) (by decide) (by decide)
  refine ⟨by decide, ?_, ?_⟩
  · exact h.1 512 ⟨512, 512, 0, 0, END_OF_CHAIN⟩ (by decide)
  · exact h.2.2 512 ⟨512, 512, 0, 0, END_OF_CHAIN⟩ (by decide) (by decide) (by decide)

/-- An in-bounds `Vec` index read as `get?` yields the `getD` value. -/
theorem get?_eq_some_getD (l : List Nat) (n : Nat) (h : n < l.length) :
    l.get? n = some (l.getD n 0) := by
  cases hq : l.get? n with
  | none =>
    rw [List.get?_eq_none] at hq
    omega
  | some x =>
    have hx : l[n]? = some x := by
      rw [← List.get?_eq_getElem?]
      exact hq
    have hgd : l.getD n 0 = x := by
      simp [List.getD, hx]
    rw [hgd]

/-- The ceiling chain length covers the stream:
`total ≤ ⌈total / sl⌉ * sl`. -/
theorem ceil_mul_ge (total sl : Nat) (hsl : 0 < sl) :
    total ≤ (total + sl - 1) / sl * sl := by
  rcases Nat.eq_zero_or_pos total with h0 | h1
  · subst h0
    exact Nat.zero_le _
  · have heq : total + sl - 1 = (total - 1) + sl := by omega
    rw [heq, Nat.add_div_right _ hsl]
    have hdm := Nat.div_add_mod (total - 1) sl
    have hmod : (total - 1) % sl < sl := Nat.mod_lt _ hsl
    have hexp : ((total - 1) / sl + 1) * sl = sl * ((total - 1) / sl) + sl := by ring
    rw [hexp]
    generalize hA : sl * ((total - 1) / sl) = A at hdm
    generalize hM : (total - 1) % sl = M at hdm hmod
    omega

/-- The seek chain walk succeeds on a well-formed chain whenever the
target offset is within the chain's span and the walk starts at its
head. -/
theorem seekWalk_isOk (fat : List Nat) (sl : Nat) (hsl : 0 < sl) :
    ∀ (cs : List Nat) (offset fuel sector : Nat),
      isChain fat cs = true →
      offset ≤ cs.length * sl →
      (sl ≤ offset → cs.get? 0 = some sector) →
      offset ≤ fuel →
      ∃ res, seekWalk fat sl fuel offset sector = .ok res := by
  intro cs
  induction cs with
  | nil =>
    intro offset fuel sector _ hle _ _
    have h0 : offset = 0 := by simpa using hle
    subst h0
    cases fuel with
    | zero => exact ⟨(sector, 0), by simp [seekWalk, hsl]⟩
    | succ f => exact ⟨(sector, 0), by simp [seekWalk, hsl]⟩
  | cons c rest ih =>
    intro offset fuel sector hch hle hhead hfuel
    by_cases hlt : offset < sl
    · cases fuel with
      | zero => exact ⟨(sector, offset), by simp [seekWalk, hlt]⟩
      | succ f => exact ⟨(sector, offset), by simp [seekWalk, hlt]⟩
    · push_neg at hlt
      have hsec : sector = c := by
        have hh := hhead hlt
        simp only [List.get?] at hh
        cases hh
        rfl
      subst hsec
      obtain ⟨hclen, hcmax, hrest⟩ := isChain_cons fat sector rest hch
      cases fuel with
      | zero => omega
      | succ f =>
        have hget : fat.get? sector = some (fat.getD sector 0) :=
          get?_eq_some_getD fat sector hclen
        have hle' : offset - sl ≤ rest.length * sl := by
          have hlen : (sector :: rest).length * sl = rest.length * sl + sl := by
            simp [List.length_cons]
            ring
          rw [hlen] at hle
          generalize rest.length * sl = B at hle ⊢
          omega
        have hhead' : sl ≤ offset - sl → rest.get? 0 = some (fat.getD sector 0) := by
          intro hs2
          cases rest with
          | nil =>
            exfalso
            simp at hle'
            omega
          | cons t rest2 =>
            rw [isChain_cons_cons fat sector t rest2 hch]
            rfl
        obtain ⟨res, hres⟩ := ih (offset - sl) f (fat.getD sector 0) hrest hle' hhead'
          (by omega)
        refine ⟨res, ?_⟩
        simp only [seekWalk]
        rw [if_neg (by omega), hget]
        exact hres

/-- Reinterpreting a natural number below `2^63` as an `i64` is the
identity. -/
theorem wrap64_natCast (n : Nat) (h : n < 2 ^ 63) : wrap64 (n : Int) = n := by
  unfold wrap64
  omega

/-- Equation for `seekNewPos` at `Start`. -/
theorem seekNewPos_fromStart (s : StreamState) (d : Nat) :
    seekNewPos s (.fromStart d) = wrap64 d := rfl

/-- Equation for `seekNewPos` at `Current`. -/
theorem seekNewPos_fromCurrent (s : StreamState) (d : Int) :
    seekNewPos s (.fromCurrent d) = wrap64 (d + wrap64 s.offset_from_start) := rfl

/-- `Int.toNat` undoes the natural-number embedding. -/
theorem int_toNat_natCast (n : Nat) : ((n : Int)).toNat = n := rfl

/-- `seek(Current(0))` targets the current offset itself. -/
theorem seekNewPos_current_zero (s : StreamState) (h : s.offset_from_start < 2 ^ 63) :
    seekNewPos s (.fromCurrent 0) = (s.offset_from_start : Int) := by
  rw [seekNewPos_fromCurrent, wrap64_natCast _ h, zero_add, wrap64_natCast _ h]

/-- `seek(Current(0))` on an in-bounds cursor is a no-op returning the
current offset. -/
theorem seek_current_zero (v : Version) (fat : List Nat) (s1 : StreamState)
    (h63 : s1.total_len < 2 ^ 63) (hle : s1.offset_from_start ≤ s1.total_len) :
    Stream.seek fat v s1 (.fromCurrent 0) = .ok (s1.offset_from_start, s1) := by
  simp only [Stream.seek]
  rw [seekNewPos_current_zero s1 (by omega)]
  rw [wrap64_natCast s1.total_len h63]
  rw [if_neg (by omega), int_toNat_natCast, if_pos rfl]

/-- C2: every successful `Stream::seek` returns the logical offset the
cursor held before the seek took effect; and for any position
`p ≤ total_len` on a stream whose chain is well formed,
`seek(Start(p))` succeeds and a following `seek(Current(0))` returns
`p` while leaving the cursor unchanged. -/
theorem c2_stream_seek (v : Version) (fat : List Nat) (s : StreamState) (p : Nat)
    (cs : List Nat)
    (h63 : s.total_len < 2 ^ 63)
    (hp : p ≤ s.total_len)
    (hchain : streamChainOk fat v.sector_len s.total_len cs)
    (hstart : 0 < s.total_len → cs.get? 0 = some s.start_sector) :
    (∀ pos r s1, Stream.seek fat v s pos = .ok (r, s1) → r = s.offset_from_start) ∧
    (∃ res, Stream.seek fat v s (.fromStart p) = .ok res) ∧
    (∀ r1 s1, Stream.seek fat v s (.fromStart p) = .ok (r1, s1) →
      s1.offset_from_start = p ∧ s1.total_len = s.total_len ∧
      Stream.seek fat v s1 (.fromCurrent 0) = .ok (p, s1)) := by
  have hsl : 0 < v.sector_len := sector_len_pos v
  have hwp : wrap64 (p : Int) = p := wrap64_natCast p (by omega)
  have hwt : wrap64 (s.total_len : Int) = s.total_len := wrap64_natCast _ h63
  have htn : ((p : Int)).toNat = p := rfl
  refine ⟨?_, ?_, ?_⟩
  · intro pos r s1 h
    simp only [Stream.seek] at h
    split at h
    · cases h
    · split at h
      · cases h
        rfl
      · split at h
        · cases h
        · cases h
          rfl
  · simp only [Stream.seek]
    rw [seekNewPos_fromStart, hwp, hwt, htn]
    rw [if_neg (by omega)]
    by_cases hpe : p = s.offset_from_start
    · rw [if_pos hpe]
      exact ⟨_, rfl⟩
    · rw [if_neg hpe]
      have hple : p ≤ cs.length * v.sector_len := by
        rcases Nat.eq_zero_or_pos s.total_len with h0 | h1
        · have hp0 : p = 0 := by omega
          subst hp0
          exact Nat.zero_le _
        · have hcover := ceil_mul_ge s.total_len v.sector_len hsl
          rw [← hchain.2] at hcover
          omega
      obtain ⟨res, hres⟩ := seekWalk_isOk fat v.sector_len hsl cs p p s.start_sector
        hchain.1 hple (fun hs2 => hstart (by omega)) (le_refl p)
      rw [hres]
      exact ⟨_, rfl⟩
  · intro r1 s1 h
    simp only [Stream.seek] at h
    rw [seekNewPos_fromStart, hwp, hwt, htn] at h
    rw [if_neg (by omega)] at h
    by_cases hpe : p = s.offset_from_start
    · rw [if_pos hpe] at h
      cases h
      subst hpe
      exact ⟨rfl, rfl, seek_current_zero v fat s h63 hp⟩
    · rw [if_neg hpe] at h
      cases hsw : seekWalk fat v.sector_len p p s.start_sector with
      | error e =>
        rw [hsw] at h
        cases h
      | ok res =>
        rw [hsw] at h
        cases h
        exact ⟨rfl, rfl, seek_current_zero v fat _ h63 hp⟩

/-- C2 witness: on a 512-byte V3 stream, `seek(Start(100))` succeeds and
the following `seek(Current(0))` returns 100, leaving the cursor as the
first seek set it. -/
theorem c2_stream_seek_witness :
    Stream.seek [END_OF_CHAIN] Version.v3 ⟨512, 100, 100, 0, 0⟩ (.fromCurrent 0)
      = .ok (100, ⟨512, 100, 100, 0, 0⟩) := by
  have h := c2_stream_seek Version.v3 [END_OF_CHAIN] ⟨512, 0, 0, 0, 0⟩ 100 [0]
    (by decide) (by decide) (by decide) (by decide)
  exact (h.2.2 0 ⟨512, 100, 100, 0, 0⟩ (by decide)).2.2

/-- C4 (code evaluated at the failing input): in a directory holding
sibling streams "a" (code unit 97) and "b" (98), renaming "a" to "b"
does not fail — `set_name` has no sibling-conflict check (`// TODO` in
the source) — and leaves two siblings both named "b". -/
theorem c4_set_name_conflict_accepted :
    Storage.set_name [rootDirEntry, ⟨1, [97], 2⟩, ⟨1, [98], 2⟩] 1 [98]
      = .ok [rootDirEntry, ⟨1, [98], 2⟩, ⟨1, [98], 2⟩] := by
  decide

/-- C1 (counterexample): the claim fails on the code in two ways.  First,
`create_with_version(_, V4)` does not produce a 12288-byte container at
all: the header-padding length `HEADER_LEN - sector_len` underflows
`usize` (512 < 4096) and the call panics.  Second, header bytes 28..30 of
the V3 image hold the byte-order mark `FE FF`, not the sector shift
`09 00`; the sector shift is written at bytes 30..32. -/
theorem c1_create_counterexample :
    create_with_version Version.v4 = Except.error CfbError.panic ∧
    (v3Image.drop 28).take 2 = [0xfe, 0xff] ∧
    (v3Image.drop 28).take 2 ≠ [0x09, 0x00] := by
  refine ⟨rfl, by decide, by decide⟩

/-- C1 (amended): `create_with_version(_, V3)` writes exactly 3 sectors of
512 bytes (1536 bytes total), beginning with the magic number, with the
sector shift `09 00` stored little-endian at header bytes 30..32 and the
byte-order mark `FE FF` at bytes 28..30; `create_with_version(_, V4)`
produces no container: the header-padding length `HEADER_LEN - sector_len`
underflows `usize` and panics (a code slip — the intent, per the padding
comment in the source, is `sector_len - HEADER_LEN`). -/
theorem c1_create_amended :
    create_with_version Version.v3 = Except.ok v3Image ∧
    v3Image.length = 3 * Version.v3.sector_len ∧
    v3Image.take 8 = MAGIC_NUMBER ∧
    (v3Image.drop 30).take 2 = u16leBytes Version.v3.sector_shift ∧
    (v3Image.drop 28).take 2 = u16leBytes BYTE_ORDER_MARK ∧
    create_with_version Version.v4 = Except.error CfbError.panic := by
  refine ⟨rfl, by decide, by decide, by decide, by decide, rfl⟩

/-- C8 (code evaluated at the failing input): `create_with_version(_, V3)`
writes `1`, not `0`, in the 4-byte `num_dir_sectors` header field at
offset 40 — the source writes the literal `1` for both versions, while
the claim (and MS-CFB, which requires the field to be zero in V3) says the
V3 value must be `0`. -/
theorem c8_num_dir_sectors_v3 :
    create_with_version Version.v3 = Except.ok v3Image ∧
    (v3Image.drop 40).take 4 = u32leBytes 1 ∧
    (v3Image.drop 40).take 4 ≠ u32leBytes 0 := by
  refine ⟨rfl, by decide, by decide⟩

/-- Round trip mirroring the crate's own test
`write_and_read_empty_compound_file`: opening the V3 image produced by
`create_with_version` succeeds, with DIFAT `[0]`, FAT
`[FAT_SECTOR, END_OF_CHAIN]` and a directory of the root entry plus three
unallocated slots. -/
example : openCfb v3Image = .ok (CompoundFile.mk .v3 [0] [FAT_SECTOR, END_OF_CHAIN]
    [rootDirEntry, DirEntry.mk 1 [] 0, DirEntry.mk 1 [] 0, DirEntry.mk 1 [] 0]) := by
  decide

end Cfb
